import Mathlib

/-!
Verification of the audio passthrough engine (src/audio/audio.py).

The Python code is shallowly embedded: 16-bit PCM samples are modelled as
integers, buffers as lists of integers, and the float arithmetic of numpy
as exact rational arithmetic.  The numpy conversion `astype(np.int16)`
truncates a float toward zero and then wraps modulo 2^16 into the signed
16-bit range; this is modelled by `ratTrunc` followed by `wrap16`.
-/

/-- Truncation toward zero, the behaviour of the Python `int()` conversion
and of the numpy float-to-integer cast. -/
def ratTrunc (q : ℚ) : ℤ :=
  if q < 0 then ⌈q⌉ else ⌊q⌋

/-- Wraparound of an integer into the signed 16-bit range, the behaviour of
the numpy cast to `np.int16` for values that fit in a machine word. -/
def wrap16 (x : ℤ) : ℤ :=
  (x + 32768) % 65536 - 32768

/-- The composite conversion performed by `.astype(np.int16)` on a float
value: truncate toward zero, then wrap into the signed 16-bit range. -/
def astypeInt16 (q : ℚ) : ℤ :=
  wrap16 (ratTrunc q)

/-- Spec-side definition, following the words of the specification only:
saturate (clip) a value to the signed 16-bit range.  The source code does
not contain such an operation; this definition exists to compare the
specified behaviour with the embedded code. -/
def saturate16 (x : ℤ) : ℤ :=
  max (-32768) (min 32767 x)

/-- Volume step of the capture worker (audio.py lines 183-185):
`if volume_multiplier != 1.0: audio_data = (audio_data * volume_multiplier).astype(np.int16)`. -/
def applyVolume (v : ℚ) (xs : List ℤ) : List ℤ :=
  if v ≠ 1 then xs.map (fun (s : ℤ) => astypeInt16 ((s : ℚ) * v)) else xs

/-- Mono-to-stereo remix (audio.py line 195): `np.repeat(audio_data, 2)`. -/
def monoToStereo (xs : List ℤ) : List ℤ :=
  xs.flatMap (fun a => [a, a])

/-- The `reshape(-1, 2)` view of an interleaved buffer as left/right pairs
(audio.py line 191). -/
def pairize : List ℤ → List (ℤ × ℤ)
  | a :: b :: rest => (a, b) :: pairize rest
  | _ => []

/-- Stereo-to-mono remix (audio.py lines 191-192):
`np.mean(audio_data.reshape(-1, 2), axis=1).astype(np.int16)`.
The mean of an int16 pair is computed exactly in floating point. -/
def stereoToMono (xs : List ℤ) : List ℤ :=
  (pairize xs).map (fun p => astypeInt16 (((p.1 : ℚ) + (p.2 : ℚ)) / 2))

/-- Evenly spaced query points, the behaviour of `np.linspace(0, stop, num)`
with the default inclusive endpoint (audio.py lines 207, 212, 220). -/
def linspace (stop num : ℕ) : List ℚ :=
  if num = 0 then []
  else if num = 1 then [0]
  else (List.range num).map (fun (i : ℕ) => (stop : ℚ) * (i : ℚ) / ((num : ℚ) - 1))

/-- One-point linear interpolation, the behaviour of `np.interp(x, xp, fp)`
with `xp = np.arange(fp.length)`: clamp to the first or last data point
outside the index range, otherwise interpolate linearly between the two
neighbouring points. -/
def interpAt (fp : List ℚ) (x : ℚ) : ℚ :=
  if fp = [] then 0
  else if x ≤ 0 then fp.headD 0
  else if ((fp.length : ℚ) - 1) ≤ x then fp.getLastD 0
  else
    let j := (⌊x⌋).toNat
    fp.getD j 0 + (x - (j : ℚ)) * (fp.getD (j + 1) 0 - fp.getD j 0)

/-- Interleaving of the two resampled channels (audio.py line 216):
`np.column_stack((left_resampled, right_resampled)).flatten()`. -/
def interleave : List ℤ → List ℤ → List ℤ
  | a :: as, b :: bs => a :: b :: interleave as bs
  | _, _ => []

/-- The new buffer length computed by the resampling step (audio.py
lines 200-201): `ratio = sample_rate / input_rate` followed by
`new_length = int(len(audio_data) * ratio)`. -/
def resampleNewLength (len inputRate sampleRate : ℕ) : ℕ :=
  (ratTrunc ((len : ℚ) * ((sampleRate : ℚ) / (inputRate : ℚ)))).toNat

/-- Mono resampling path (audio.py lines 218-223): interpolate the whole
buffer as one sequence over `new_length` evenly spaced query points. -/
def monoResample (newLength : ℕ) (xs : List ℤ) : List ℤ :=
  (linspace xs.length newLength).map
    (fun x => astypeInt16 (interpAt (xs.map (fun (s : ℤ) => (s : ℚ))) x))

/-- Stereo resampling path (audio.py lines 204-216): view the buffer as
left/right pairs, interpolate each channel over `new_length // 2` query
points across the original index range, then interleave. -/
def stereoResample (newLength : ℕ) (xs : List ℤ) : List ℤ :=
  let stereo := pairize xs
  let qs := linspace stereo.length (newLength / 2)
  let leftResampled := qs.map
    (fun x => astypeInt16 (interpAt (stereo.map (fun (p : ℤ × ℤ) => (p.1 : ℚ))) x))
  let rightResampled := qs.map
    (fun x => astypeInt16 (interpAt (stereo.map (fun (p : ℤ × ℤ) => (p.2 : ℚ))) x))
  interleave leftResampled rightResampled

/-- Sample-rate conversion step of the capture worker (audio.py
lines 197-223): active only when the input rate differs from the
negotiated rate; the stereo path is taken when the output has two channels
and the buffer length is even, otherwise the mono path is taken. -/
def resample (inputRate sampleRate outputChannels : ℕ) (xs : List ℤ) : List ℤ :=
  if inputRate ≠ sampleRate then
    if outputChannels = 2 ∧ xs.length % 2 = 0 then
      stereoResample (resampleNewLength xs.length inputRate sampleRate) xs
    else
      monoResample (resampleNewLength xs.length inputRate sampleRate) xs
  else xs

/-- A frame travelling through the transport queue: a block of samples. -/
abbrev Frame := List ℤ

/-- Push of the capture worker into the bounded transport queue (audio.py
lines 225-234): try a non-blocking put; when the queue is full, remove the
oldest frame with `get_nowait` and put again. -/
def queuePush (cap : ℕ) (q : List Frame) (f : Frame) : List Frame :=
  if q.length < cap then q ++ [f] else q.tail ++ [f]

/-- The silence frame synthesized by the playback worker on a queue
timeout (audio.py line 249):
`np.zeros(self.chunk_size * output_channels, dtype=np.int16)`. -/
def silenceFrame (chunkSize outputChannels : ℕ) : List ℤ :=
  List.replicate (chunkSize * outputChannels) 0

/-- Result of `audio_queue.get(timeout=0.1)` in the playback worker:
either a frame of data, or the Empty signal on timeout. -/
inductive PopResult where
  | data (frame : List ℤ)
  | empty
deriving DecidableEq

/-- One iteration of the playback worker (audio.py lines 241-253): the
frame written to the output device is the popped data verbatim, or a
silence frame on the Empty signal. -/
def outputIteration (chunkSize outputChannels : ℕ) (r : PopResult) : List ℤ :=
  match r with
  | .data f => f
  | .empty => silenceFrame chunkSize outputChannels

/-- Device snapshot as enumerated by the audio subsystem: the fields of
the pyaudio device-info record used by audio.py. -/
structure Device where
  index : ℕ
  name : List Char
  maxInputChannels : ℕ
  maxOutputChannels : ℕ
  defaultSampleRate : ℕ
deriving DecidableEq

/-- Kind of device requested from `find_device_by_name`. -/
inductive DeviceKind where
  | output
  | input
  | loopback
deriving DecidableEq

/-- The source type of the capture side passed to `start_passthrough`. -/
inductive InputType where
  | loopback
  | input
  | defaultLoopback
deriving DecidableEq

/-- The device kind a given input source type searches with. -/
def InputType.kind : InputType → DeviceKind
  | .loopback => .loopback
  | .input => .input
  | .defaultLoopback => .loopback

/-- Head-of-list match: the fragment occurs at the start of the name. -/
def takesFrom : List Char → List Char → Bool
  | [], _ => true
  | _ :: _, [] => false
  | a :: frag, b :: name => a == b && takesFrom frag name

/-- Substring containment, the behaviour of the Python `in` operator on
strings. -/
def occursIn (frag : List Char) : List Char → Bool
  | [] => takesFrom frag []
  | b :: name => takesFrom frag (b :: name) || occursIn frag name

/-- Case-insensitive substring match (audio.py line 57):
`name_fragment.lower() in device['name'].lower()`. -/
def lowerMatch (frag name : List Char) : Bool :=
  occursIn (frag.map Char.toLower) (name.map Char.toLower)

/-- The predicate a device must satisfy in each branch of
`find_device_by_name` (audio.py lines 54-70): a capability check on the
channel count for output and input kinds, plus the name match. -/
def deviceMatches (kind : DeviceKind) (frag : List Char) (d : Device) : Bool :=
  match kind with
  | .output => decide (0 < d.maxOutputChannels) && lowerMatch frag d.name
  | .input => decide (0 < d.maxInputChannels) && lowerMatch frag d.name
  | .loopback => lowerMatch frag d.name

/-- Environment of the audio subsystem: the enumerated devices, the
defaults, and oracles telling whether `self.audio.open` succeeds for a
given device index, channel count and rate. -/
structure AudioEnv where
  devices : List Device
  loopbacks : List Device
  defaultLoopback : Option Device
  defaultOutput : Option Device
  openOutputOk : ℕ → ℕ → ℕ → Bool
  openInputOk : ℕ → ℕ → ℕ → Bool

/-- The enumeration a given device kind iterates over: the loopback
generator for loopback devices, the plain device generator otherwise. -/
def enumeratedDevices (env : AudioEnv) (kind : DeviceKind) : List Device :=
  match kind with
  | .loopback => env.loopbacks
  | _ => env.devices

/-- `find_device_by_name` (audio.py lines 52-71): the first enumerated
device of the requested kind satisfying the match predicate. -/
def findDeviceByName (env : AudioEnv) (frag : List Char) (kind : DeviceKind) :
    Option Device :=
  (enumeratedDevices env kind).find? (deviceMatches kind frag)

/-- Spec-side reading of the match predicate: capability of the requested
kind, and the lowercased fragment occurs inside the lowercased name. -/
def nameMatchSpec (kind : DeviceKind) (frag : List Char) (d : Device) : Prop :=
  (match kind with
   | .output => 0 < d.maxOutputChannels
   | .input => 0 < d.maxInputChannels
   | .loopback => True) ∧
  frag.map Char.toLower <:+: d.name.map Char.toLower

/-- Resolution of the input device in `start_passthrough` (audio.py
lines 85-101): the default loopback for the default-loopback source type,
otherwise a name search with the given fragment, failing without one. -/
def resolveInput (env : AudioEnv) (name? : Option (List Char)) (t : InputType) :
    Option Device :=
  match t with
  | .defaultLoopback => env.defaultLoopback
  | _ =>
    match name? with
    | some frag => findDeviceByName env frag t.kind
    | none => none

/-- Resolution of the output device in `start_passthrough` (audio.py
lines 103-117): a name search with the given fragment, otherwise the
default output device. -/
def resolveOutput (env : AudioEnv) (name? : Option (List Char)) : Option Device :=
  match name? with
  | some frag => findDeviceByName env frag .output
  | none => env.defaultOutput

/-- Rate negotiation of `start_passthrough` (audio.py lines 119-145): the
candidate rate is the input device default rate; a throwaway probe-open of
the output device decides whether to keep it or fall back to the output
device default rate. -/
def negotiateRate (env : AudioEnv) (outDev : Device)
    (outputChannels inputRate : ℕ) : ℕ :=
  if env.openOutputOk outDev.index outputChannels inputRate then inputRate
  else outDev.defaultSampleRate

/-- Negotiated session format returned by a successful start. -/
structure Session where
  sampleRate : ℕ
  inputChannels : ℕ
  outputChannels : ℕ
deriving DecidableEq

/-- Observable state of an `AudioPassthrough` object: the running flag,
whether each stream attribute is assigned and whether the underlying
stream is open, and the transport queue contents. -/
structure PassthroughState where
  isRunning : Bool
  inputStreamSet : Bool
  inputStreamOpen : Bool
  outputStreamSet : Bool
  outputStreamOpen : Bool
  queue : List Frame
deriving DecidableEq

/-- The state of a freshly constructed `AudioPassthrough`: nothing open,
nothing running, empty queue. -/
def initPass : PassthroughState :=
  ⟨false, false, false, false, false, []⟩

/-- The state after a fully successful `start_passthrough`: both streams
assigned and open, running flag set, queue still empty. -/
def runningState : PassthroughState :=
  ⟨true, true, true, true, true, []⟩

/-- The queue-draining loop of `stop_passthrough` (audio.py lines 290-294):
`get_nowait` until the queue reports empty. -/
def drainQueue : List Frame → List Frame
  | [] => []
  | _ :: rest => drainQueue rest

/-- `stop_passthrough` (audio.py lines 270-296): clear the running flag,
close whichever streams are assigned, and drain the queue.  Thread joins
have no effect on the modelled state. -/
def stopPassthrough (p : PassthroughState) : PassthroughState :=
  let p1 := { p with isRunning := false }
  let p2 := if p1.inputStreamSet then { p1 with inputStreamOpen := false } else p1
  let p3 := if p2.outputStreamSet then { p2 with outputStreamOpen := false } else p2
  { p3 with queue := drainQueue p3.queue }

/-- `start_passthrough` (audio.py lines 73-268): resolve both devices
(failing pre-open when a name fragment matches nothing), negotiate the
rate, open the input stream then the output stream, and either return the
running session or tear down whatever was opened via `stop_passthrough`. -/
def startPassthrough (env : AudioEnv) (inName? outName? : Option (List Char))
    (t : InputType) : Option Session × PassthroughState :=
  match resolveInput env inName? t with
  | none => (none, initPass)
  | some inDev =>
    match resolveOutput env outName? with
    | none => (none, initPass)
    | some outDev =>
      let inputChannels := min inDev.maxInputChannels 2
      let outputChannels := min outDev.maxOutputChannels 2
      let sampleRate := negotiateRate env outDev outputChannels inDev.defaultSampleRate
      if env.openInputOk inDev.index inputChannels sampleRate then
        if env.openOutputOk outDev.index outputChannels sampleRate then
          (some ⟨sampleRate, inputChannels, outputChannels⟩, runningState)
        else
          (none, stopPassthrough ⟨false, true, true, false, false, []⟩)
      else
        (none, stopPassthrough initPass)

/-- Concrete capture device for the negotiation scenario: two input
channels, default rate 48000 Hz. -/
def micDevice : Device := ⟨0, ['m', 'i', 'c'], 2, 0, 48000⟩

/-- Concrete playback device for the negotiation scenario: two output
channels, native rate 44100 Hz. -/
def speakerDevice : Device := ⟨1, ['s', 'p', 'k'], 0, 2, 44100⟩

/-- Environment for the negotiation scenario: the output device accepts
opens only at 44100 Hz, so the probe at 48000 Hz fails. -/
def scenarioEnv : AudioEnv :=
  ⟨[micDevice, speakerDevice], [], none, none,
   fun _ _ r => r == 44100, fun _ _ _ => true⟩

/-- Environment with no devices at all, for the unmatched-fragment
scenario. -/
def emptyEnv : AudioEnv :=
  ⟨[], [], none, none, fun _ _ _ => false, fun _ _ _ => false⟩

/-- Concrete device whose name does not contain the searched fragment and
which has no output channels. -/
def devX : Device := ⟨0, ['x'], 0, 0, 1⟩

/-- First concrete device matching the fragment b. -/
def devAB : Device := ⟨1, ['a', 'b'], 0, 2, 2⟩

/-- Second, later concrete device also matching the fragment b. -/
def devB : Device := ⟨2, ['b'], 0, 2, 3⟩

/-- Environment for the device-search scenario: one non-matching device
followed by two matching ones. -/
def findEnv : AudioEnv :=
  ⟨[devX, devAB, devB], [], none, none, fun _ _ _ => false, fun _ _ _ => false⟩

theorem wrap16_range (x : ℤ) : -32768 ≤ wrap16 x ∧ wrap16 x ≤ 32767 := by
  unfold wrap16
  omega

theorem wrap16_of_range (a : ℤ) (h1 : -32768 ≤ a) (h2 : a ≤ 32767) :
    wrap16 a = a := by
  unfold wrap16
  omega

theorem ratTrunc_intCast (a : ℤ) : ratTrunc ((a : ℚ)) = a := by
  unfold ratTrunc
  split
  · exact Int.ceil_intCast a
  · exact Int.floor_intCast a

theorem astypeInt16_intCast (a : ℤ) (h1 : -32768 ≤ a) (h2 : a ≤ 32767) :
    astypeInt16 ((a : ℚ)) = a := by
  unfold astypeInt16
  rw [ratTrunc_intCast]
  exact wrap16_of_range a h1 h2

/-- C1 counterexample: at volume 2 the sample 20000 scales to 40000, which
the code wraps to -25536 instead of saturating at 32767. -/
theorem C1_counterexample :
    applyVolume 2 [20000] = [-25536] ∧
    saturate16 (ratTrunc ((20000 : ℚ) * 2)) = 32767 ∧
    applyVolume 2 [20000] ≠ [saturate16 (ratTrunc ((20000 : ℚ) * 2))] := by
  have hne : (2 : ℚ) ≠ 1 := by norm_num
  have hmul : ((20000 : ℤ) : ℚ) * 2 = 40000 := by norm_num
  have key : astypeInt16 (((20000 : ℤ) : ℚ) * 2) = -25536 := by
    rw [hmul]; decide
  have h1 : applyVolume 2 [20000] = [-25536] := by
    unfold applyVolume
    rw [if_pos hne]
    show [astypeInt16 (((20000 : ℤ) : ℚ) * 2)] = [-25536]
    rw [key]
  have h2 : saturate16 (ratTrunc ((20000 : ℚ) * 2)) = 32767 := by
    rw [show (20000 : ℚ) * 2 = 40000 by norm_num]
    decide
  exact ⟨h1, h2, by rw [h1, h2]; decide⟩

/-- C1 (amended): for every volume multiplier in (0,4] and every 16-bit
buffer, the volume step keeps every sample inside the signed 16-bit range,
but it does so by wrapping out-of-range products modulo 2^16 rather than by
saturating at the range bounds. -/
theorem C1_volume_range (v : ℚ) (xs : List ℤ) (_hv0 : 0 < v) (_hv4 : v ≤ 4)
    (hxs : ∀ s ∈ xs, -32768 ≤ s ∧ s ≤ 32767) :
    ∀ y ∈ applyVolume v xs, -32768 ≤ y ∧ y ≤ 32767 := by
  intro y hy
  unfold applyVolume at hy
  by_cases h : v ≠ 1
  · rw [if_pos h] at hy
    obtain ⟨s, _, rfl⟩ := List.mem_map.mp hy
    exact wrap16_range _
  · rw [if_neg h] at hy
    exact hxs y hy

/-- C1 witness: the amended statement at volume 2 on the buffer
with the single sample 20000. -/
theorem C1_volume_range_witness :
    (0 < (2 : ℚ) ∧ (2 : ℚ) ≤ 4 ∧
      ∀ s ∈ ([20000] : List ℤ), -32768 ≤ s ∧ s ≤ 32767) ∧
    ∀ y ∈ applyVolume 2 [20000], -32768 ≤ y ∧ y ≤ 32767 :=
  ⟨⟨by norm_num, by norm_num, by decide⟩,
    C1_volume_range 2 [20000] (by norm_num) (by norm_num) (by decide)⟩

theorem pairize_monoToStereo (xs : List ℤ) :
    pairize (monoToStereo xs) = xs.map (fun a => (a, a)) := by
  induction xs with
  | nil => rfl
  | cons a t ih =>
    have hmt : monoToStereo (a :: t) = a :: a :: monoToStereo t := by
      simp [monoToStereo]
    rw [hmt, List.map_cons, ← ih]
    rfl

/-- C3: the mono-to-stereo remix followed by the stereo-to-mono remix
reproduces any 16-bit buffer exactly. -/
theorem C3_remix_roundtrip (xs : List ℤ)
    (hxs : ∀ s ∈ xs, -32768 ≤ s ∧ s ≤ 32767) :
    stereoToMono (monoToStereo xs) = xs := by
  unfold stereoToMono
  rw [pairize_monoToStereo]
  induction xs with
  | nil => rfl
  | cons a t ih =>
    have ha := hxs a (List.mem_cons_self a t)
    rw [List.map_cons, List.map_cons]
    congr 1
    · have hmean : (((a : ℚ)) + (a : ℚ)) / 2 = ((a : ℚ)) := by ring
      rw [hmean]
      exact astypeInt16_intCast a ha.1 ha.2
    · exact ih (fun s hs => hxs s (List.mem_cons_of_mem a hs))

/-- C3 witness: the round trip on the concrete buffer [5, -7]. -/
theorem C3_remix_roundtrip_witness :
    (∀ s ∈ ([5, -7] : List ℤ), -32768 ≤ s ∧ s ≤ 32767) ∧
    stereoToMono (monoToStereo [5, -7]) = [5, -7] :=
  ⟨by decide, C3_remix_roundtrip [5, -7] (by decide)⟩

/-- C6: on the Empty signal the playback worker writes a silence frame of
exactly chunk_size times output_channels samples, all zero. -/
theorem C6_silence_frame (chunkSize outputChannels : ℕ) :
    (outputIteration chunkSize outputChannels PopResult.empty).length
      = chunkSize * outputChannels ∧
    ∀ y ∈ outputIteration chunkSize outputChannels PopResult.empty, y = 0 := by
  constructor
  · simp [outputIteration, silenceFrame]
  · intro y hy
    simp only [outputIteration, silenceFrame, List.mem_replicate] at hy
    exact hy.2

theorem queuePush_foldl (cap : ℕ) (hcap : 0 < cap) (fs : List Frame) :
    List.foldl (queuePush cap) [] fs = fs.drop (fs.length - cap) := by
  induction fs using List.reverseRecOn with
  | nil => simp
  | append_singleton fs f ih =>
    rw [List.foldl_append]
    simp only [List.foldl_cons, List.foldl_nil]
    rw [ih]
    unfold queuePush
    by_cases h : fs.length < cap
    · rw [if_pos]
      · have hd : fs.length - cap = 0 := by omega
        have hd2 : (fs ++ [f]).length - cap = 0 := by
          simp only [List.length_append, List.length_cons, List.length_nil]
          omega
        rw [hd, hd2, List.drop_zero, List.drop_zero]
      · rw [List.length_drop]
        omega
    · rw [if_neg]
      · rw [List.tail_drop, List.length_append]
        have : fs.length + [f].length - cap = (fs.length - cap + 1) := by
          simp only [List.length_cons, List.length_nil]
          omega
        rw [this, List.drop_append_of_le_length (by omega)]
      · rw [List.length_drop]
        omega

theorem queuePush_length_le (cap : ℕ) (hcap : 0 < cap) (q : List Frame)
    (f : Frame) (hq : q.length ≤ cap) : (queuePush cap q f).length ≤ cap := by
  unfold queuePush
  by_cases h : q.length < cap
  · rw [if_pos h]
    simp only [List.length_append, List.length_cons, List.length_nil]
    omega
  · rw [if_neg h]
    simp only [List.length_append, List.length_cons, List.length_nil,
      List.length_tail]
    omega

/-- C2: pushing K+1 frames into an empty transport queue of capacity K
retains exactly the K most recently pushed frames in push order, and a
push never grows the queue beyond its capacity. -/
theorem C2_queue_drop_oldest (cap : ℕ) (fs : List Frame) (hcap : 0 < cap)
    (hlen : fs.length = cap + 1) :
    List.foldl (queuePush cap) [] fs = fs.drop 1 ∧
    ∀ (q : List Frame) (f : Frame), q.length ≤ cap →
      (queuePush cap q f).length ≤ cap := by
  constructor
  · rw [queuePush_foldl cap hcap fs, hlen]
    congr 1
    omega
  · exact fun q f hq => queuePush_length_le cap hcap q f hq

/-- C2 witness: a queue of capacity 2 receiving three frames keeps the
last two, in order. -/
theorem C2_queue_drop_oldest_witness :
    (0 < 2 ∧ ([[1], [2], [3]] : List Frame).length = 2 + 1) ∧
    (List.foldl (queuePush 2) [] [[1], [2], [3]] = [[1], [2], [3]].drop 1 ∧
      ∀ (q : List Frame) (f : Frame), q.length ≤ 2 →
        (queuePush 2 q f).length ≤ 2) :=
  ⟨⟨by decide, by decide⟩,
    C2_queue_drop_oldest 2 [[1], [2], [3]] (by decide) (by decide)⟩

theorem drainQueue_eq_nil (q : List Frame) : drainQueue q = [] := by
  induction q with
  | nil => rfl
  | cons a t ih => exact ih

/-- C7: `stop_passthrough` is idempotent on the modelled state; after each
call the session is not running and the queue is drained. -/
theorem C7_stop_idempotent (p : PassthroughState) :
    stopPassthrough (stopPassthrough p) = stopPassthrough p ∧
    (stopPassthrough p).isRunning = false ∧
    (stopPassthrough p).queue = [] ∧
    (stopPassthrough (stopPassthrough p)).isRunning = false ∧
    (stopPassthrough (stopPassthrough p)).queue = [] := by
  obtain ⟨r, iSet, iOpen, oSet, oOpen, q⟩ := p
  unfold stopPassthrough
  cases iSet <;> cases oSet <;>
    simp [drainQueue_eq_nil]

theorem linspace_length (stop num : ℕ) : (linspace stop num).length = num := by
  unfold linspace
  split_ifs with h0 h1
  · simp [h0]
  · simp [h1]
  · simp

theorem interleave_length (a b : List ℤ) (h : a.length = b.length) :
    (interleave a b).length = 2 * a.length := by
  induction a generalizing b with
  | nil =>
    cases b with
    | nil => rfl
    | cons y ys => simp at h
  | cons x xs ih =>
    cases b with
    | nil => simp at h
    | cons y ys =>
      simp only [List.length_cons] at h
      show (x :: y :: interleave xs ys).length = 2 * (x :: xs).length
      simp only [List.length_cons, ih ys (by omega)]
      omega

theorem resampleNewLength_eq (len inputRate sampleRate : ℕ)
    (h : 0 < inputRate) :
    resampleNewLength len inputRate sampleRate = len * sampleRate / inputRate := by
  unfold resampleNewLength ratTrunc
  have hq : (len : ℚ) * ((sampleRate : ℚ) / (inputRate : ℚ))
      = ((len * sampleRate : ℕ) : ℚ) / ((inputRate : ℕ) : ℚ) := by
    push_cast
    ring
  rw [hq]
  have h0 : (0 : ℚ) ≤ ((len * sampleRate : ℕ) : ℚ) / ((inputRate : ℕ) : ℚ) := by
    positivity
  rw [if_neg (not_lt.mpr h0), Int.floor_toNat, Nat.floor_div_nat,
    Nat.floor_natCast]

theorem monoResample_length (n : ℕ) (xs : List ℤ) :
    (monoResample n xs).length = n := by
  unfold monoResample
  rw [List.length_map, linspace_length]

theorem stereoResample_length (n : ℕ) (xs : List ℤ) :
    (stereoResample n xs).length = 2 * (n / 2) := by
  unfold stereoResample
  rw [interleave_length _ _ (by rw [List.length_map, List.length_map]),
    List.length_map, linspace_length]

/-- C4: for any non-empty buffer and any distinct rates from the standard
set, the resampling step produces an output whose length differs from
floor(input_length times out_rate over in_rate) by at most one. -/
theorem C4_resample_length (xs : List ℤ) (inRate outRate ch : ℕ)
    (_hxs : xs ≠ [])
    (hin : inRate ∈ [8000, 16000, 22050, 44100, 48000])
    (_hout : outRate ∈ [8000, 16000, 22050, 44100, 48000])
    (hne : inRate ≠ outRate) :
    xs.length * outRate / inRate ≤ (resample inRate outRate ch xs).length + 1 ∧
    (resample inRate outRate ch xs).length ≤ xs.length * outRate / inRate + 1 := by
  have hpos : 0 < inRate := by
    simp only [List.mem_cons, List.not_mem_nil, or_false] at hin
    rcases hin with h | h | h | h | h <;> omega
  have hN := resampleNewLength_eq xs.length inRate outRate hpos
  unfold resample
  rw [if_pos hne]
  by_cases hster : ch = 2 ∧ xs.length % 2 = 0
  · rw [if_pos hster, stereoResample_length, hN]
    omega
  · rw [if_neg hster, monoResample_length, hN]
    omega

/-- C4 witness: resampling a four-sample buffer from 48000 Hz to
44100 Hz. -/
theorem C4_resample_length_witness :
    (([1, 2, 3, 4] : List ℤ) ≠ [] ∧
      48000 ∈ [8000, 16000, 22050, 44100, 48000] ∧
      44100 ∈ [8000, 16000, 22050, 44100, 48000] ∧
      48000 ≠ 44100) ∧
    (([1, 2, 3, 4] : List ℤ).length * 44100 / 48000
        ≤ (resample 48000 44100 1 [1, 2, 3, 4]).length + 1 ∧
      (resample 48000 44100 1 [1, 2, 3, 4]).length
        ≤ ([1, 2, 3, 4] : List ℤ).length * 44100 / 48000 + 1) :=
  ⟨⟨by decide, by decide, by decide, by decide⟩,
    C4_resample_length [1, 2, 3, 4] 48000 44100 1 (by decide) (by decide)
      (by decide) (by decide)⟩

/-- C10: with a two-channel output and a rate mismatch, an even-length
buffer takes the per-channel stereo path, whose output length is
2 * (new_length / 2) and hence even; an odd-length buffer falls through to
the mono path, behaving exactly as a single-channel resample of the
interleaved sequence. -/
theorem C10_stereo_path (inRate outRate : ℕ) (xs : List ℤ)
    (hne : inRate ≠ outRate) :
    (xs.length % 2 = 0 →
      resample inRate outRate 2 xs
          = stereoResample (resampleNewLength xs.length inRate outRate) xs ∧
      (resample inRate outRate 2 xs).length
          = 2 * (resampleNewLength xs.length inRate outRate / 2) ∧
      (resample inRate outRate 2 xs).length % 2 = 0) ∧
    (xs.length % 2 = 1 →
      resample inRate outRate 2 xs
          = monoResample (resampleNewLength xs.length inRate outRate) xs ∧
      resample inRate outRate 2 xs = resample inRate outRate 1 xs) := by
  constructor
  · intro heven
    have hcond : (2 = 2 ∧ xs.length % 2 = 0) := ⟨rfl, heven⟩
    have h1 : resample inRate outRate 2 xs
        = stereoResample (resampleNewLength xs.length inRate outRate) xs := by
      unfold resample
      rw [if_pos hne, if_pos hcond]
    refine ⟨h1, ?_, ?_⟩
    · rw [h1, stereoResample_length]
    · rw [h1, stereoResample_length]
      omega
  · intro hodd
    have hcond : ¬(2 = 2 ∧ xs.length % 2 = 0) := by omega
    have hcond1 : ¬(1 = 2 ∧ xs.length % 2 = 0) := by omega
    have h1 : resample inRate outRate 2 xs
        = monoResample (resampleNewLength xs.length inRate outRate) xs := by
      unfold resample
      rw [if_pos hne, if_neg hcond]
    refine ⟨h1, ?_⟩
    rw [h1]
    unfold resample
    rw [if_pos hne, if_neg hcond1]

/-- C10 witness: a two-sample (even) buffer resampled from 48000 Hz to
44100 Hz for a two-channel output. -/
theorem C10_stereo_path_witness :
    (48000 ≠ 44100) ∧
    ((([1, 2] : List ℤ).length % 2 = 0 →
      resample 48000 44100 2 [1, 2]
          = stereoResample (resampleNewLength ([1, 2] : List ℤ).length 48000 44100) [1, 2] ∧
      (resample 48000 44100 2 [1, 2]).length
          = 2 * (resampleNewLength ([1, 2] : List ℤ).length 48000 44100 / 2) ∧
      (resample 48000 44100 2 [1, 2]).length % 2 = 0) ∧
    (([1, 2] : List ℤ).length % 2 = 1 →
      resample 48000 44100 2 [1, 2]
          = monoResample (resampleNewLength ([1, 2] : List ℤ).length 48000 44100) [1, 2] ∧
      resample 48000 44100 2 [1, 2] = resample 48000 44100 1 [1, 2])) :=
  ⟨by decide, C10_stereo_path 48000 44100 [1, 2] (by decide)⟩

theorem takesFrom_iff (f n : List Char) :
    takesFrom f n = true ↔ ∃ t, f ++ t = n := by
  induction f generalizing n with
  | nil =>
    simp only [takesFrom, List.nil_append]
    exact ⟨fun _ => ⟨n, rfl⟩, fun _ => trivial⟩
  | cons a frag ih =>
    cases n with
    | nil =>
      simp [takesFrom]
    | cons b name =>
      simp only [takesFrom, Bool.and_eq_true, beq_iff_eq, ih]
      constructor
      · rintro ⟨rfl, t, rfl⟩
        exact ⟨t, rfl⟩
      · rintro ⟨t, h⟩
        injection h with h1 h2
        exact ⟨h1, t, h2⟩

theorem occursIn_iff (f n : List Char) :
    occursIn f n = true ↔ ∃ s t, s ++ f ++ t = n := by
  induction n with
  | nil =>
    simp only [occursIn, takesFrom_iff]
    constructor
    · rintro ⟨t, h⟩
      exact ⟨[], t, by simpa using h⟩
    · rintro ⟨s, t, h⟩
      rcases List.append_eq_nil.mp h with ⟨h1, h2⟩
      rcases List.append_eq_nil.mp h1 with ⟨rfl, rfl⟩
      exact ⟨[], by simp⟩
  | cons b name ih =>
    simp only [occursIn, Bool.or_eq_true, takesFrom_iff, ih]
    constructor
    · rintro (⟨t, h⟩ | ⟨s, t, h⟩)
      · exact ⟨[], t, by simpa using h⟩
      · exact ⟨b :: s, t, by simp [h]⟩
    · rintro ⟨s, t, h⟩
      cases s with
      | nil =>
        exact Or.inl ⟨t, by simpa using h⟩
      | cons c s =>
        rw [List.cons_append, List.cons_append] at h
        injection h with h1 h2
        exact Or.inr ⟨s, t, by simpa using h2⟩

theorem isSubstringOf_iff (f n : List Char) :
    f <:+: n ↔ ∃ s t, s ++ f ++ t = n :=
  Iff.rfl

theorem deviceMatches_iff (kind : DeviceKind) (frag : List Char) (d : Device) :
    deviceMatches kind frag d = true ↔ nameMatchSpec kind frag d := by
  cases kind <;>
    simp [deviceMatches, nameMatchSpec, lowerMatch, occursIn_iff,
      isSubstringOf_iff]

theorem find?_first {α : Type} (p : α → Bool) (l : List α) (d : α)
    (h : l.find? p = some d) :
    ∃ pre post, l = pre ++ d :: post ∧ p d = true ∧ ∀ e ∈ pre, p e = false := by
  induction l with
  | nil => simp at h
  | cons a t ih =>
    by_cases hpa : p a = true
    · rw [List.find?_cons_of_pos _ hpa] at h
      injection h with h1
      subst h1
      exact ⟨[], t, rfl, hpa, by simp⟩
    · rw [List.find?_cons_of_neg _ (by simpa using hpa)] at h
      obtain ⟨pre, post, rfl, hd, hpre⟩ := ih h
      refine ⟨a :: pre, post, rfl, hd, ?_⟩
      intro e he
      rcases List.mem_cons.mp he with rfl | he2
      · simpa using hpa
      · exact hpre e he2

/-- C9: `find_device_by_name` returns the first enumerated device of the
requested kind whose display name contains the fragment as a
case-insensitive substring, and returns nothing exactly when no
enumerated device of that kind matches. -/
theorem C9_find_device (env : AudioEnv) (frag : List Char) (kind : DeviceKind) :
    (∀ d, findDeviceByName env frag kind = some d →
      ∃ pre post, enumeratedDevices env kind = pre ++ d :: post ∧
        nameMatchSpec kind frag d ∧
        ∀ e ∈ pre, ¬ nameMatchSpec kind frag e) ∧
    (findDeviceByName env frag kind = none ↔
      ∀ d ∈ enumeratedDevices env kind, ¬ nameMatchSpec kind frag d) := by
  constructor
  · intro d hd
    obtain ⟨pre, post, heq, hpd, hpre⟩ :=
      find?_first (deviceMatches kind frag) (enumeratedDevices env kind) d hd
    refine ⟨pre, post, heq, (deviceMatches_iff kind frag d).mp hpd, ?_⟩
    intro e he hspec
    have htrue := (deviceMatches_iff kind frag e).mpr hspec
    rw [hpre e he] at htrue
    exact Bool.false_ne_true htrue
  · unfold findDeviceByName
    rw [List.find?_eq_none]
    constructor
    · intro h d hdm hspec
      exact h d hdm ((deviceMatches_iff kind frag d).mpr hspec)
    · intro h d hdm hmatch
      exact h d hdm ((deviceMatches_iff kind frag d).mp hmatch)

/-- C9 witness: in a concrete enumeration with one non-matching device
followed by two matching ones, the search returns the first matching
device, with the non-matching device as the only earlier entry. -/
theorem C9_find_device_witness :
    (findDeviceByName findEnv ['b'] DeviceKind.output = some devAB) ∧
    ∃ pre post, enumeratedDevices findEnv DeviceKind.output = pre ++ devAB :: post ∧
      nameMatchSpec DeviceKind.output ['b'] devAB ∧
      ∀ e ∈ pre, ¬ nameMatchSpec DeviceKind.output ['b'] e :=
  ⟨by decide,
    (C9_find_device findEnv ['b'] DeviceKind.output).1 devAB (by decide)⟩

/-- C8: when a supplied device-name fragment matches no enumerated device
of the requested kind (on either the input or the output side), start
fails before any stream is opened: no stream attribute is ever assigned
and the session is not running. -/
theorem C8_unmatched_fragment (env : AudioEnv) (inName? outName? : Option (List Char))
    (t : InputType)
    (h : (∃ frag, inName? = some frag ∧ t ≠ InputType.defaultLoopback ∧
            findDeviceByName env frag t.kind = none) ∨
         (∃ frag, outName? = some frag ∧
            findDeviceByName env frag DeviceKind.output = none)) :
    startPassthrough env inName? outName? t = (none, initPass) ∧
    initPass.inputStreamSet = false ∧ initPass.outputStreamSet = false ∧
    initPass.isRunning = false := by
  refine ⟨?_, rfl, rfl, rfl⟩
  rcases h with ⟨frag, rfl, ht, hfind⟩ | ⟨frag, rfl, hfind⟩
  · have hres : resolveInput env (some frag) t = none := by
      cases t with
      | loopback => simpa [resolveInput, InputType.kind] using hfind
      | input => simpa [resolveInput, InputType.kind] using hfind
      | defaultLoopback => exact absurd rfl ht
    unfold startPassthrough
    rw [hres]
  · have hres : resolveOutput env (some frag) = none := by
      simpa [resolveOutput] using hfind
    unfold startPassthrough
    cases hin : resolveInput env inName? t with
    | none => rfl
    | some inDev => rw [hres]

/-- C8 witness: searching an empty device enumeration for the fragment x
fails pre-open with nothing assigned and nothing running. -/
theorem C8_unmatched_fragment_witness :
    ((∃ frag, (some ['x'] : Option (List Char)) = some frag ∧
        InputType.input ≠ InputType.defaultLoopback ∧
        findDeviceByName emptyEnv frag InputType.input.kind = none) ∨
      (∃ frag, (none : Option (List Char)) = some frag ∧
        findDeviceByName emptyEnv frag DeviceKind.output = none)) ∧
    (startPassthrough emptyEnv (some ['x']) none InputType.input
        = (none, initPass) ∧
      initPass.inputStreamSet = false ∧ initPass.outputStreamSet = false ∧
      initPass.isRunning = false) :=
  ⟨Or.inl ⟨['x'], rfl, by decide, by decide⟩,
    C8_unmatched_fragment emptyEnv (some ['x']) none InputType.input
      (Or.inl ⟨['x'], rfl, by decide, by decide⟩)⟩

/-- C5: when the probe-open of the output device at the input device
default rate fails, the negotiated rate is the output device default
rate; if both real opens then succeed the session carries that fallback
rate, and if either open at the fallback rate fails no session starts. -/
theorem C5_rate_fallback (env : AudioEnv) (inName? outName? : Option (List Char))
    (t : InputType) (inDev outDev : Device)
    (hin : resolveInput env inName? t = some inDev)
    (hout : resolveOutput env outName? = some outDev)
    (hprobe : env.openOutputOk outDev.index (min outDev.maxOutputChannels 2)
        inDev.defaultSampleRate = false) :
    negotiateRate env outDev (min outDev.maxOutputChannels 2)
        inDev.defaultSampleRate = outDev.defaultSampleRate ∧
    (env.openInputOk inDev.index (min inDev.maxInputChannels 2)
        outDev.defaultSampleRate = true →
      env.openOutputOk outDev.index (min outDev.maxOutputChannels 2)
        outDev.defaultSampleRate = true →
      startPassthrough env inName? outName? t =
        (some ⟨outDev.defaultSampleRate, min inDev.maxInputChannels 2,
          min outDev.maxOutputChannels 2⟩, runningState)) ∧
    ((env.openInputOk inDev.index (min inDev.maxInputChannels 2)
        outDev.defaultSampleRate = false ∨
      env.openOutputOk outDev.index (min outDev.maxOutputChannels 2)
        outDev.defaultSampleRate = false) →
      (startPassthrough env inName? outName? t).1 = none ∧
      (startPassthrough env inName? outName? t).2.isRunning = false) := by
  have hneg : negotiateRate env outDev (min outDev.maxOutputChannels 2)
      inDev.defaultSampleRate = outDev.defaultSampleRate := by
    unfold negotiateRate
    rw [hprobe]
    simp
  refine ⟨hneg, ?_, ?_⟩
  · intro hiOpen hoOpen
    unfold startPassthrough
    rw [hin, hout]
    simp only [hneg, hiOpen, hoOpen, if_true]
  · intro hfail
    unfold startPassthrough
    rw [hin, hout]
    simp only [hneg]
    rcases hfail with hiFail | hoFail
    · rw [hiFail]
      simp [stopPassthrough, initPass, drainQueue]
    · rw [hoFail]
      cases hopen : env.openInputOk inDev.index (min inDev.maxInputChannels 2)
          outDev.defaultSampleRate <;>
        simp [stopPassthrough, initPass, drainQueue]

/-- C5 witness: a 48000 Hz two-channel input against an output rejecting
48000 Hz with native rate 44100 Hz negotiates a 44100 Hz session. -/
theorem C5_rate_fallback_witness :
    (resolveInput scenarioEnv (some ['m', 'i', 'c']) InputType.input
        = some micDevice ∧
      resolveOutput scenarioEnv (some ['s', 'p', 'k']) = some speakerDevice ∧
      scenarioEnv.openOutputOk speakerDevice.index
        (min speakerDevice.maxOutputChannels 2)
        micDevice.defaultSampleRate = false) ∧
    startPassthrough scenarioEnv (some ['m', 'i', 'c']) (some ['s', 'p', 'k'])
        InputType.input = (some ⟨44100, 2, 2⟩, runningState) :=
  ⟨⟨by decide, by decide, by decide⟩, by
    have h := (C5_rate_fallback scenarioEnv (some ['m', 'i', 'c'])
      (some ['s', 'p', 'k']) InputType.input micDevice speakerDevice
      (by decide) (by decide) (by decide)).2.1 (by decide) (by decide)
    exact h⟩
